import Mathlib

/-!
Shallow embedding of `msUsingFibers.cpp`, a fiber-based file-copy pipeline.

The program converts its thread to the primary fiber, creates a read fiber
and a write fiber sharing one global buffer (`g_lpBuffer`, `BUFFER_SIZE`
bytes) and one global byte count (`g_dwBytesRead`), and switches into the
read fiber.  The read fiber repeatedly fills the buffer via `ReadFile`;
on success with a nonzero count it switches to the write fiber, which
drains `g_dwBytesRead` bytes via `WriteFile` and switches back.  A failed
or zero-byte read ends the read fiber (result code := `GetLastError()`,
switch to the primary fiber); a failed write ends the write fiber
likewise.

Machine-level facts reflected by the model:
* `DWORD` counters (`dwBytesProcessed`) wrap modulo 2^32 (`addDW`).
* `HeapAlloc(GetProcessHeap(), 0, _)` does not zero memory, so the fiber
  data structures hold arbitrary allocation contents until a field is
  explicitly assigned (`HeapGarbage`).
* `ReadFile`/`WriteFile` outcomes are supplied by oracles: a read either
  fails with an error code or delivers a chunk of bytes (a zero-length
  chunk is end of stream); a write either fails with an error code or
  succeeds having transferred at most the requested number of bytes
  (Win32 reports the actual count through `lpNumberOfBytesWritten`).
* A failing call sets the thread's last-error value (read by
  `GetLastError()`); successful calls leave it unchanged.
-/

namespace MsUsingFibers

/-- `#define BUFFER_SIZE 32768` — the read/write buffer size. -/
def BUFFER_SIZE : Nat := 32768

/-- `ERROR_SUCCESS` (0), the Win32 "no error" code. -/
def ERROR_SUCCESS : Nat := 0

/-- `INVALID_HANDLE_VALUE` ((HANDLE)-1); handles are modelled as integers. -/
def INVALID_HANDLE_VALUE : Int := -1

/-- Modulus of 32-bit `DWORD` arithmetic. -/
def DWORD_MOD : Nat := 4294967296

/-- `DWORD` addition: `a += b` on a 32-bit unsigned counter. -/
def addDW (a b : Nat) : Nat := (a + b) % DWORD_MOD

/-- The `FIBERDATASTRUCT` record: per-fiber parameter, result code
(`GetLastError()` value), file handle and cumulative byte counter. -/
structure FIBERDATASTRUCT where
  dwParameter : Nat
  dwFiberResultCode : Nat
  hFile : Int
  dwBytesProcessed : Nat
deriving Repr, DecidableEq

/-- Outcome of one `ReadFile(hFile, g_lpBuffer, BUFFER_SIZE, &g_dwBytesRead, NULL)`
call: failure with a last-error code, or success delivering the given bytes
(the empty chunk is end of stream). -/
inductive ReadRes where
  | fail (e : Nat)
  | chunk (bs : List Nat)
deriving Repr, DecidableEq

/-- Outcome of one `WriteFile(hFile, g_lpBuffer, g_dwBytesRead, &dwBytesWritten, NULL)`
call: failure with a last-error code, or success with `dwBytesWritten`
bytes transferred (capped at the requested count by the semantics). -/
inductive WriteRes where
  | fail (e : Nat)
  | ok (w : Nat)
deriving Repr, DecidableEq

/-- The two worker fibers. -/
inductive Worker where
  | reader
  | writer
deriving Repr, DecidableEq

/-- Observable events of a pipeline run: `ReadFile`/`WriteFile` outcomes and
`SwitchToFiber` hand-offs.  `toPrimary w` is worker `w`'s terminal
transition (its switch to the primary fiber). -/
inductive Event where
  | readOk (n : Nat)
  | readErr (e : Nat)
  | toWriter
  | writeOk (n : Nat)
  | writeErr (e : Nat)
  | toReader
  | toPrimary (w : Worker)
deriving Repr, DecidableEq

/-- Whole-machine state: the three fiber data structures, the global buffer
`g_lpBuffer` (its currently meaningful contents), the global `g_dwBytesRead`,
the bytes written to the destination so far, the thread's last-error value,
and whether the write fiber has executed its entry code yet. -/
structure SysState where
  readFds : FIBERDATASTRUCT
  writeFds : FIBERDATASTRUCT
  primaryFds : FIBERDATASTRUCT
  buffer : List Nat
  g_dwBytesRead : Nat
  dest : List Nat
  lastError : Nat
  writerStarted : Bool
deriving Repr, DecidableEq

/-- Read-fiber epilogue after its loop breaks:
`fds->dwFiberResultCode = GetLastError();` then switch to the primary fiber. -/
def readerTerminal (st : SysState) : SysState :=
  { st with readFds := { st.readFds with dwFiberResultCode := st.lastError } }

/-- Write-fiber epilogue after its loop breaks:
`fds->dwFiberResultCode = GetLastError();` then switch to the primary fiber. -/
def writerTerminal (st : SysState) : SysState :=
  { st with writeFds := { st.writeFds with dwFiberResultCode := st.lastError } }

/-- Write-fiber entry code, run once on its first resumption:
`fds->dwBytesProcessed = 0; fds->dwFiberResultCode = ERROR_SUCCESS;`. -/
def writerInitIfNeeded (st : SysState) : SysState :=
  if st.writerStarted then st
  else
    { st with
      writerStarted := true
      writeFds := { st.writeFds with
        dwBytesProcessed := 0
        dwFiberResultCode := ERROR_SUCCESS } }

/-- Read-fiber loop body on a successful nonzero read of `bs`: the buffer
now holds `bs`, `g_dwBytesRead := bs.length`,
`fds->dwBytesProcessed += g_dwBytesRead` (DWORD arithmetic). -/
def readerPush (bs : List Nat) (st : SysState) : SysState :=
  { st with
    buffer := bs
    g_dwBytesRead := bs.length
    readFds := { st.readFds with
      dwBytesProcessed := addDW st.readFds.dwBytesProcessed bs.length } }

/-- Write-fiber loop body on a successful write: `dwBytesWritten` is the
actual transferred count `min w g_dwBytesRead`; the destination receives
the first `dwBytesWritten` bytes of the buffer and
`fds->dwBytesProcessed += dwBytesWritten` (DWORD arithmetic). -/
def writerPush (w : Nat) (st : SysState) : SysState :=
  { st with
    dest := st.dest ++ st.buffer.take (min w st.g_dwBytesRead)
    writeFds := { st.writeFds with
      dwBytesProcessed := addDW st.writeFds.dwBytesProcessed (min w st.g_dwBytesRead) } }

/-- One read-fiber loop iteration: either a terminal break (failed read, or
zero bytes read) followed by the terminal switch to the primary fiber, or a
hand-off to the write fiber. -/
inductive RStep where
  | handoff (st : SysState)
  | halt (st : SysState) (ev : Event)

/-- One iteration of the read fiber's `while(1)` loop on `ReadFile`
outcome `r`.  A failed read sets the last error and breaks; a zero-byte
read stores 0 in `g_dwBytesRead` and breaks; otherwise the chunk is
published and control is handed to the write fiber. -/
def readerCycle (r : ReadRes) (st : SysState) : RStep :=
  match r with
  | .fail e => .halt (readerTerminal { st with lastError := e }) (.readErr e)
  | .chunk bs =>
    if bs.length = 0 then
      .halt (readerTerminal { st with g_dwBytesRead := 0 }) (.readOk 0)
    else
      .handoff (readerPush bs st)

/-- One write-fiber loop iteration: either a terminal break (failed write)
followed by the terminal switch to the primary fiber, or a hand-off back to
the read fiber after a successful write of `written` bytes. -/
inductive WStep where
  | toReader (st : SysState) (written : Nat)
  | halt (st : SysState) (e : Nat)

/-- One iteration of the write fiber's `while(1)` loop on `WriteFile`
outcome `res`, including the one-time entry initialization.  A failed
write sets the last error and breaks; otherwise
`min w g_dwBytesRead` bytes are appended to the destination and control
returns to the read fiber. -/
def writerCycle (res : WriteRes) (st0 : SysState) : WStep :=
  let st := writerInitIfNeeded st0
  match res with
  | .fail e => .halt (writerTerminal { st with lastError := e }) e
  | .ok w => .toReader (writerPush w st) (min w st.g_dwBytesRead)

/-- The `WriteFile` outcome consumed by the next write: head of the write
oracle, defaulting to a full successful write when the oracle is exhausted. -/
def headW (ws : List WriteRes) : WriteRes := ws.headD (.ok BUFFER_SIZE)

/-- The `i`-th `WriteFile` outcome of the write oracle (same default). -/
def wAt (ws : List WriteRes) (i : Nat) : WriteRes := ws.getD i (.ok BUFFER_SIZE)

/-- The alternating pipeline, entered at the read fiber's loop, driven by
the list of remaining `ReadFile` outcomes (an exhausted list reads as end
of stream) and the list of `WriteFile` outcomes.  Returns the final state
when control reaches the primary fiber, paired with the event trace. -/
def run : List ReadRes → List WriteRes → SysState → SysState × List Event
  | [], _, st =>
    (readerTerminal { st with g_dwBytesRead := 0 }, [.readOk 0, .toPrimary .reader])
  | r :: rest, ws, st =>
    match readerCycle r st with
    | .halt st1 ev => (st1, [ev, .toPrimary .reader])
    | .handoff st1 =>
      match writerCycle (headW ws) st1 with
      | .halt st2 e => (st2, [.readOk st1.g_dwBytesRead, .toWriter, .writeErr e, .toPrimary .writer])
      | .toReader st2 w =>
        let p := run rest ws.tail st2
        (p.1, .readOk st1.g_dwBytesRead :: .toWriter :: .writeOk w :: .toReader :: p.2)

/-- Heap contents, at the moment of allocation, of the memory that will hold
the three `FIBERDATASTRUCT` records and the shared buffer.
`HeapAlloc(GetProcessHeap(), 0, _)` does not zero memory, so these values
are arbitrary. -/
structure HeapGarbage where
  primaryG : FIBERDATASTRUCT
  readG : FIBERDATASTRUCT
  writeG : FIBERDATASTRUCT
  bufG : List Nat
deriving Repr, DecidableEq

/-- The three fiber data structures during `_tmain`'s setup. -/
structure TCBs where
  primaryFs : FIBERDATASTRUCT
  readFs : FIBERDATASTRUCT
  writeFs : FIBERDATASTRUCT
deriving Repr, DecidableEq

/-- State of the records after the two `CreateFile` calls stored the source
and destination handles, before `ConvertThreadToFiber`. -/
def tcbsAfterOpen (g : HeapGarbage) (hSrc hDst : Int) : TCBs :=
  { primaryFs := g.primaryG
    readFs := { g.readG with hFile := hSrc }
    writeFs := { g.writeG with hFile := hDst } }

/-- State of the records at the moment `CreateFiber(0, ReadFiberFunc, &fs[READ_FIBER])`
executes: the primary record's `dwParameter`, `dwFiberResultCode` and
`hFile` have been assigned (its `dwBytesProcessed` has not); neither worker
record has had anything but `hFile` assigned. -/
def tcbsAtReadFiberCreation (g : HeapGarbage) (hSrc hDst : Int) : TCBs :=
  { tcbsAfterOpen g hSrc hDst with
    primaryFs := { g.primaryG with
      dwParameter := 0
      dwFiberResultCode := 0
      hFile := INVALID_HANDLE_VALUE } }

/-- State of the records at the moment `CreateFiber(0, WriteFiberFunc, &fs[WRITE_FIBER])`
executes: additionally `fs[READ_FIBER].dwParameter = 0x12345678` has run. -/
def tcbsAtWriteFiberCreation (g : HeapGarbage) (hSrc hDst : Int) : TCBs :=
  let t := tcbsAtReadFiberCreation g hSrc hDst
  { t with readFs := { t.readFs with dwParameter := 0x12345678 } }

/-- State of the records just before `SwitchToFiber(g_lpFiber[READ_FIBER])`:
additionally `fs[WRITE_FIBER].dwParameter = 0x54545454` has run. -/
def tcbsAfterSetup (g : HeapGarbage) (hSrc hDst : Int) : TCBs :=
  let t := tcbsAtWriteFiberCreation g hSrc hDst
  { t with writeFs := { t.writeFs with dwParameter := 0x54545454 } }

/-- Whole-machine state just before `SwitchToFiber(g_lpFiber[READ_FIBER])`:
the destination file was freshly created (`CREATE_NEW`, hence empty), the
global `g_dwBytesRead` is a zero-initialized static, the buffer holds its
allocation garbage, no call has failed, and the write fiber has not run. -/
def startState (g : HeapGarbage) (hSrc hDst : Int) : SysState :=
  let t := tcbsAfterSetup g hSrc hDst
  { readFds := t.readFs
    writeFds := t.writeFs
    primaryFds := t.primaryFs
    buffer := g.bufG
    g_dwBytesRead := 0
    dest := []
    lastError := 0
    writerStarted := false }

/-- Read-fiber entry code, run before its loop: `fds->dwBytesProcessed = 0;`. -/
def readerInit (st : SysState) : SysState :=
  { st with readFds := { st.readFds with dwBytesProcessed := 0 } }

/-- The complete pipeline from `SwitchToFiber(g_lpFiber[READ_FIBER])` in
`_tmain` until control returns to the primary fiber. -/
def pipeline (src : List ReadRes) (ws : List WriteRes) (g : HeapGarbage)
    (hSrc hDst : Int) : SysState × List Event :=
  run src ws (readerInit (startState g hSrc hDst))

/-- The bytes a read outcome delivers. -/
def chunkBytes : ReadRes → List Nat
  | .fail _ => []
  | .chunk bs => bs

/-- The source stream's contents: concatenation of the delivered chunks. -/
def srcBytes (src : List ReadRes) : List Nat := (src.map chunkBytes).flatten

/-- A read outcome that a positioned disk read before end of file can
produce: a nonempty chunk of at most `BUFFER_SIZE` bytes. -/
def goodChunk : ReadRes → Prop
  | .fail _ => False
  | .chunk bs => bs ≠ [] ∧ bs.length ≤ BUFFER_SIZE

instance : DecidablePred goodChunk
  | .fail _ => isFalse (fun h => h)
  | .chunk bs => inferInstanceAs (Decidable (bs ≠ [] ∧ bs.length ≤ BUFFER_SIZE))

/-- A write outcome that fully transfers the chunk read for it. -/
def fullWriteFor (r : ReadRes) (x : WriteRes) : Prop :=
  match x with
  | .fail _ => False
  | .ok w => (chunkBytes r).length ≤ w

instance (r : ReadRes) : (x : WriteRes) → Decidable (fullWriteFor r x)
  | .fail _ => isFalse (fun h => h)
  | .ok w => inferInstanceAs (Decidable ((chunkBytes r).length ≤ w))

/-- A successful (possibly short) write outcome. -/
def okWrite : WriteRes → Prop
  | .fail _ => False
  | .ok _ => True

instance : DecidablePred okWrite
  | .fail _ => isFalse (fun h => h)
  | .ok _ => isTrue trivial

/-- The number of bytes a successful write outcome offers (0 on failure). -/
def okAmt : WriteRes → Nat
  | .fail _ => 0
  | .ok w => w

/-- Is this event a `ReadFile` call? -/
def isReadEv : Event → Bool
  | .readOk _ => true
  | .readErr _ => true
  | _ => false

/-- Is this event a successful `WriteFile` call? -/
def isWriteOkEv : Event → Bool
  | .writeOk _ => true
  | _ => false

/-- Is this event a terminal switch to the primary fiber? -/
def isToPrimaryEv : Event → Bool
  | .toPrimary _ => true
  | _ => false

/-- Is this event a failed call? -/
def isFailEv : Event → Bool
  | .readErr _ => true
  | .writeErr _ => true
  | _ => false

/-- Number of `ReadFile` calls in a trace. -/
def countReads (tr : List Event) : Nat := tr.countP isReadEv

/-- Number of successful `WriteFile` calls in a trace. -/
def countWriteOk (tr : List Event) : Nat := tr.countP isWriteOkEv

/-- Number of terminal switches to the primary fiber in a trace. -/
def countToPrimary (tr : List Event) : Nat := tr.countP isToPrimaryEv

/-- Bytes actually transferred by an event (nonzero only for `writeOk`). -/
def writtenOf : Event → Nat
  | .writeOk n => n
  | _ => 0

/-- Total bytes transferred by the successful writes of a trace. -/
def sumWritten (tr : List Event) : Nat := (tr.map writtenOf).sum

/-- Every `ReadFile` and `WriteFile` call in the trace succeeded. -/
def callsAllSucceeded (tr : List Event) : Bool := tr.all (fun ev => !isFailEv ev)

/-- Total bytes the writes `xs` transfer against the chunks `rs`
(`min` of offered and requested per cycle, in lockstep). -/
def sumMin : List WriteRes → List ReadRes → Nat
  | x :: xs, r :: rs => min (okAmt x) (chunkBytes r).length + sumMin xs rs
  | _, _ => 0

section ProjectionLemmas

variable (st : SysState) (bs : List Nat) (w : Nat)

@[simp] theorem writerInitIfNeeded_readFds : (writerInitIfNeeded st).readFds = st.readFds := by
  unfold writerInitIfNeeded; split <;> rfl

@[simp] theorem writerInitIfNeeded_primaryFds :
    (writerInitIfNeeded st).primaryFds = st.primaryFds := by
  unfold writerInitIfNeeded; split <;> rfl

@[simp] theorem writerInitIfNeeded_buffer : (writerInitIfNeeded st).buffer = st.buffer := by
  unfold writerInitIfNeeded; split <;> rfl

@[simp] theorem writerInitIfNeeded_g_dwBytesRead :
    (writerInitIfNeeded st).g_dwBytesRead = st.g_dwBytesRead := by
  unfold writerInitIfNeeded; split <;> rfl

@[simp] theorem writerInitIfNeeded_dest : (writerInitIfNeeded st).dest = st.dest := by
  unfold writerInitIfNeeded; split <;> rfl

@[simp] theorem writerInitIfNeeded_lastError :
    (writerInitIfNeeded st).lastError = st.lastError := by
  unfold writerInitIfNeeded; split <;> rfl

@[simp] theorem writerInitIfNeeded_writerStarted :
    (writerInitIfNeeded st).writerStarted = true := by
  unfold writerInitIfNeeded; split
  case isTrue h => exact h
  case isFalse h => rfl

@[simp] theorem writerInitIfNeeded_bp :
    (writerInitIfNeeded st).writeFds.dwBytesProcessed
      = if st.writerStarted then st.writeFds.dwBytesProcessed else 0 := by
  unfold writerInitIfNeeded; split <;> simp_all

@[simp] theorem writerInitIfNeeded_rc :
    (writerInitIfNeeded st).writeFds.dwFiberResultCode
      = if st.writerStarted then st.writeFds.dwFiberResultCode else ERROR_SUCCESS := by
  unfold writerInitIfNeeded; split <;> simp_all

@[simp] theorem writerInitIfNeeded_wparam :
    (writerInitIfNeeded st).writeFds.dwParameter = st.writeFds.dwParameter := by
  unfold writerInitIfNeeded; split <;> rfl

@[simp] theorem writerInitIfNeeded_whFile :
    (writerInitIfNeeded st).writeFds.hFile = st.writeFds.hFile := by
  unfold writerInitIfNeeded; split <;> rfl

@[simp] theorem readerPush_readbp :
    (readerPush bs st).readFds.dwBytesProcessed
      = addDW st.readFds.dwBytesProcessed bs.length := rfl

@[simp] theorem readerPush_readrc :
    (readerPush bs st).readFds.dwFiberResultCode = st.readFds.dwFiberResultCode := rfl

@[simp] theorem readerPush_rparam :
    (readerPush bs st).readFds.dwParameter = st.readFds.dwParameter := rfl

@[simp] theorem readerPush_rhFile : (readerPush bs st).readFds.hFile = st.readFds.hFile := rfl

@[simp] theorem readerPush_writeFds : (readerPush bs st).writeFds = st.writeFds := rfl

@[simp] theorem readerPush_primaryFds : (readerPush bs st).primaryFds = st.primaryFds := rfl

@[simp] theorem readerPush_buffer : (readerPush bs st).buffer = bs := rfl

@[simp] theorem readerPush_g_dwBytesRead : (readerPush bs st).g_dwBytesRead = bs.length := rfl

@[simp] theorem readerPush_dest : (readerPush bs st).dest = st.dest := rfl

@[simp] theorem readerPush_lastError : (readerPush bs st).lastError = st.lastError := rfl

@[simp] theorem readerPush_writerStarted :
    (readerPush bs st).writerStarted = st.writerStarted := rfl

@[simp] theorem writerPush_readFds : (writerPush w st).readFds = st.readFds := rfl

@[simp] theorem writerPush_primaryFds : (writerPush w st).primaryFds = st.primaryFds := rfl

@[simp] theorem writerPush_buffer : (writerPush w st).buffer = st.buffer := rfl

@[simp] theorem writerPush_g_dwBytesRead : (writerPush w st).g_dwBytesRead = st.g_dwBytesRead := rfl

@[simp] theorem writerPush_dest :
    (writerPush w st).dest = st.dest ++ st.buffer.take (min w st.g_dwBytesRead) := rfl

@[simp] theorem writerPush_lastError : (writerPush w st).lastError = st.lastError := rfl

@[simp] theorem writerPush_writerStarted :
    (writerPush w st).writerStarted = st.writerStarted := rfl

@[simp] theorem writerPush_bp :
    (writerPush w st).writeFds.dwBytesProcessed
      = addDW st.writeFds.dwBytesProcessed (min w st.g_dwBytesRead) := rfl

@[simp] theorem writerPush_rc :
    (writerPush w st).writeFds.dwFiberResultCode = st.writeFds.dwFiberResultCode := rfl

@[simp] theorem writerPush_wparam :
    (writerPush w st).writeFds.dwParameter = st.writeFds.dwParameter := rfl

@[simp] theorem writerPush_whFile : (writerPush w st).writeFds.hFile = st.writeFds.hFile := rfl

@[simp] theorem readerTerminal_readrc :
    (readerTerminal st).readFds.dwFiberResultCode = st.lastError := rfl

@[simp] theorem readerTerminal_readbp :
    (readerTerminal st).readFds.dwBytesProcessed = st.readFds.dwBytesProcessed := rfl

@[simp] theorem readerTerminal_rparam :
    (readerTerminal st).readFds.dwParameter = st.readFds.dwParameter := rfl

@[simp] theorem readerTerminal_rhFile :
    (readerTerminal st).readFds.hFile = st.readFds.hFile := rfl

@[simp] theorem readerTerminal_writeFds : (readerTerminal st).writeFds = st.writeFds := rfl

@[simp] theorem readerTerminal_primaryFds : (readerTerminal st).primaryFds = st.primaryFds := rfl

@[simp] theorem readerTerminal_dest : (readerTerminal st).dest = st.dest := rfl

@[simp] theorem readerTerminal_lastError : (readerTerminal st).lastError = st.lastError := rfl

@[simp] theorem readerTerminal_writerStarted :
    (readerTerminal st).writerStarted = st.writerStarted := rfl

@[simp] theorem writerTerminal_writerc :
    (writerTerminal st).writeFds.dwFiberResultCode = st.lastError := rfl

@[simp] theorem writerTerminal_writebp :
    (writerTerminal st).writeFds.dwBytesProcessed = st.writeFds.dwBytesProcessed := rfl

@[simp] theorem writerTerminal_wparam :
    (writerTerminal st).writeFds.dwParameter = st.writeFds.dwParameter := rfl

@[simp] theorem writerTerminal_whFile :
    (writerTerminal st).writeFds.hFile = st.writeFds.hFile := rfl

@[simp] theorem writerTerminal_readFds : (writerTerminal st).readFds = st.readFds := rfl

@[simp] theorem writerTerminal_primaryFds : (writerTerminal st).primaryFds = st.primaryFds := rfl

@[simp] theorem writerTerminal_dest : (writerTerminal st).dest = st.dest := rfl

@[simp] theorem writerTerminal_writerStarted :
    (writerTerminal st).writerStarted = st.writerStarted := rfl

end ProjectionLemmas

section RunEquations

theorem run_nil (ws : List WriteRes) (st : SysState) :
    run [] ws st
      = (readerTerminal { st with g_dwBytesRead := 0 }, [.readOk 0, .toPrimary .reader]) := rfl

theorem run_fail (e : Nat) (rest : List ReadRes) (ws : List WriteRes) (st : SysState) :
    run (.fail e :: rest) ws st
      = (readerTerminal { st with lastError := e }, [.readErr e, .toPrimary .reader]) := rfl

theorem run_emptyChunk (rest : List ReadRes) (ws : List WriteRes) (st : SysState) :
    run (.chunk [] :: rest) ws st
      = (readerTerminal { st with g_dwBytesRead := 0 }, [.readOk 0, .toPrimary .reader]) := rfl

theorem run_chunk_writeFail (bs : List Nat) (hbs : bs ≠ []) (e : Nat)
    (rest : List ReadRes) (ws : List WriteRes) (hw : headW ws = .fail e) (st : SysState) :
    run (.chunk bs :: rest) ws st
      = (writerTerminal { writerInitIfNeeded (readerPush bs st) with lastError := e },
         [.readOk bs.length, .toWriter, .writeErr e, .toPrimary .writer]) := by
  have hlen : ¬ bs.length = 0 := by simpa using hbs
  simp only [run, readerCycle, hlen, if_false, writerCycle, hw, readerPush_g_dwBytesRead]

theorem run_chunk_writeOk (bs : List Nat) (hbs : bs ≠ []) (w : Nat)
    (rest : List ReadRes) (ws : List WriteRes) (hw : headW ws = .ok w) (st : SysState) :
    run (.chunk bs :: rest) ws st
      = ((run rest ws.tail (writerPush w (writerInitIfNeeded (readerPush bs st)))).1,
         .readOk bs.length :: .toWriter :: .writeOk (min w bs.length) :: .toReader ::
           (run rest ws.tail (writerPush w (writerInitIfNeeded (readerPush bs st)))).2) := by
  have hlen : ¬ bs.length = 0 := by simpa using hbs
  simp only [run, readerCycle, hlen, if_false, writerCycle, hw, readerPush_g_dwBytesRead,
    writerInitIfNeeded_g_dwBytesRead]

end RunEquations

section SmallLemmas

theorem addDW_lt (a b : Nat) : addDW a b < DWORD_MOD :=
  Nat.mod_lt _ (by decide)

theorem wAt_zero (ws : List WriteRes) : wAt ws 0 = headW ws := by
  cases ws <;> rfl

theorem wAt_tail (ws : List WriteRes) (i : Nat) : wAt ws.tail i = wAt ws (i + 1) := by
  cases ws <;> simp [wAt]

theorem getLast?_cons_of_eq_some {α : Type} (a x : α) (l : List α)
    (h : l.getLast? = some x) : (a :: l).getLast? = some x := by
  cases l with
  | nil => simp at h
  | cons b t => rw [List.getLast?_cons_cons]; exact h

@[simp] theorem srcBytes_nil : srcBytes [] = [] := rfl

@[simp] theorem srcBytes_cons (r : ReadRes) (rest : List ReadRes) :
    srcBytes (r :: rest) = chunkBytes r ++ srcBytes rest := by
  simp [srcBytes]

@[simp] theorem countReads_nil : countReads [] = 0 := rfl

@[simp] theorem countReads_cons (a : Event) (tr : List Event) :
    countReads (a :: tr) = countReads tr + (if isReadEv a then 1 else 0) := by
  simp [countReads, List.countP_cons]

@[simp] theorem countWriteOk_nil : countWriteOk [] = 0 := rfl

@[simp] theorem countWriteOk_cons (a : Event) (tr : List Event) :
    countWriteOk (a :: tr) = countWriteOk tr + (if isWriteOkEv a then 1 else 0) := by
  simp [countWriteOk, List.countP_cons]

@[simp] theorem countToPrimary_nil : countToPrimary [] = 0 := rfl

@[simp] theorem countToPrimary_cons (a : Event) (tr : List Event) :
    countToPrimary (a :: tr) = countToPrimary tr + (if isToPrimaryEv a then 1 else 0) := by
  simp [countToPrimary, List.countP_cons]

@[simp] theorem sumWritten_nil : sumWritten [] = 0 := rfl

@[simp] theorem sumWritten_cons (a : Event) (tr : List Event) :
    sumWritten (a :: tr) = writtenOf a + sumWritten tr := by
  simp [sumWritten]

@[simp] theorem sumMin_nil_left (rs : List ReadRes) : sumMin [] rs = 0 := by
  cases rs <;> rfl

@[simp] theorem sumMin_cons (x : WriteRes) (xs : List WriteRes) (r : ReadRes)
    (rs : List ReadRes) :
    sumMin (x :: xs) (r :: rs) = min (okAmt x) (chunkBytes r).length + sumMin xs rs := rfl

end SmallLemmas

section RunLemmas

/-- Control reaches the primary fiber exactly once per run, as the final
event, via the terminal transition of a single worker. -/
theorem run_toPrimary (src : List ReadRes) (ws : List WriteRes) (st : SysState) :
    countToPrimary (run src ws st).2 = 1 ∧
    ∃ w, (run src ws st).2.getLast? = some (.toPrimary w) := by
  induction src generalizing ws st with
  | nil =>
    rw [run_nil]
    exact ⟨by simp [isToPrimaryEv, isReadEv], ⟨.reader, rfl⟩⟩
  | cons r rest ih =>
    cases r with
    | fail e =>
      rw [run_fail]
      exact ⟨by simp [isToPrimaryEv, isReadEv], ⟨.reader, rfl⟩⟩
    | chunk bs =>
      by_cases hbs : bs = []
      · subst hbs
        rw [run_emptyChunk]
        exact ⟨by simp [isToPrimaryEv, isReadEv], ⟨.reader, rfl⟩⟩
      · cases hw : headW ws with
        | fail e =>
          rw [run_chunk_writeFail bs hbs e rest ws hw]
          exact ⟨by simp [isToPrimaryEv, isReadEv, isWriteOkEv], ⟨.writer, rfl⟩⟩
        | ok w =>
          rw [run_chunk_writeOk bs hbs w rest ws hw]
          obtain ⟨hcount, wk, hlast⟩ := ih ws.tail (writerPush w (writerInitIfNeeded (readerPush bs st)))
          refine ⟨by simp [isToPrimaryEv, hcount], ⟨wk, ?_⟩⟩
          exact getLast?_cons_of_eq_some _ _ _ (getLast?_cons_of_eq_some _ _ _
            (getLast?_cons_of_eq_some _ _ _ (getLast?_cons_of_eq_some _ _ _ hlast)))

/-- Frame condition over a whole run: the fiber parameters and file handles
of both workers and the whole primary record are never written. -/
theorem run_frame (src : List ReadRes) (ws : List WriteRes) (st : SysState) :
    (run src ws st).1.readFds.dwParameter = st.readFds.dwParameter ∧
    (run src ws st).1.readFds.hFile = st.readFds.hFile ∧
    (run src ws st).1.writeFds.dwParameter = st.writeFds.dwParameter ∧
    (run src ws st).1.writeFds.hFile = st.writeFds.hFile ∧
    (run src ws st).1.primaryFds = st.primaryFds := by
  induction src generalizing ws st with
  | nil => rw [run_nil]; simp
  | cons r rest ih =>
    cases r with
    | fail e => rw [run_fail]; simp
    | chunk bs =>
      by_cases hbs : bs = []
      · subst hbs; rw [run_emptyChunk]; simp
      · cases hw : headW ws with
        | fail e => rw [run_chunk_writeFail bs hbs e rest ws hw]; simp
        | ok w =>
          rw [run_chunk_writeOk bs hbs w rest ws hw]
          simpa using ih ws.tail (writerPush w (writerInitIfNeeded (readerPush bs st)))

/-- Characterization of a clean run: every read delivers a good chunk (the
oracle ends in end-of-stream) and every write fully transfers its chunk.
The destination receives exactly the source bytes, both `DWORD` counters
advance by the total byte count, the reader's result code is the entry
last-error value, there are `src.length` hand-off cycles plus one terminal
reader cycle, and the run ends with the reader's terminal transition. -/
theorem run_clean (src : List ReadRes) (ws : List WriteRes) (st : SysState)
    (hc : ∀ r ∈ src, goodChunk r)
    (hw : ∀ i (h : i < src.length), fullWriteFor (src.get ⟨i, h⟩) (wAt ws i))
    (hbpR : st.readFds.dwBytesProcessed < DWORD_MOD)
    (hbpW : st.writerStarted = true → st.writeFds.dwBytesProcessed < DWORD_MOD) :
    (run src ws st).1.dest = st.dest ++ srcBytes src ∧
    (run src ws st).1.readFds.dwBytesProcessed
      = (st.readFds.dwBytesProcessed + (srcBytes src).length) % DWORD_MOD ∧
    (run src ws st).1.writeFds.dwBytesProcessed
      = (if src.isEmpty then st.writeFds.dwBytesProcessed
         else ((if st.writerStarted then st.writeFds.dwBytesProcessed else 0)
                + (srcBytes src).length) % DWORD_MOD) ∧
    (run src ws st).1.readFds.dwFiberResultCode = st.lastError ∧
    countReads (run src ws st).2 = src.length + 1 ∧
    countWriteOk (run src ws st).2 = src.length ∧
    (run src ws st).2.getLast? = some (.toPrimary .reader) := by
  induction src generalizing ws st with
  | nil =>
    rw [run_nil]
    refine ⟨by simp, ?_, by simp, by simp, by simp [isReadEv], by simp [isWriteOkEv], rfl⟩
    simp [Nat.mod_eq_of_lt hbpR]
  | cons r rest ih =>
    cases r with
    | fail e => exact absurd (hc _ (List.mem_cons_self _ _)) (fun h => h)
    | chunk bs =>
      obtain ⟨hne, _⟩ : bs ≠ [] ∧ bs.length ≤ BUFFER_SIZE := hc _ (List.mem_cons_self _ _)
      have hw0 := hw 0 (by simp)
      rw [wAt_zero] at hw0
      cases hwr : headW ws with
      | fail e => rw [hwr] at hw0; exact absurd hw0 (fun h => h)
      | ok w =>
        rw [hwr] at hw0
        have hwfull : bs.length ≤ w := by simpa [fullWriteFor, chunkBytes] using hw0
        have hmin : min w bs.length = bs.length := min_eq_right hwfull
        rw [run_chunk_writeOk bs hne w rest ws hwr]
        have hc' : ∀ x ∈ rest, goodChunk x := fun x hx => hc x (List.mem_cons_of_mem _ hx)
        have hw' : ∀ i (h : i < rest.length), fullWriteFor (rest.get ⟨i, h⟩) (wAt ws.tail i) := by
          intro i h
          have := hw (i + 1) (by simpa using Nat.succ_lt_succ h)
          rw [wAt_tail]
          simpa using this
        obtain ⟨ihdest, ihrbp, ihwbp, ihrc, ihcr, ihcw, ihlast⟩ :=
          ih ws.tail (writerPush w (writerInitIfNeeded (readerPush bs st))) hc' hw'
            (by simpa using addDW_lt _ _) (fun _ => by simpa using addDW_lt _ _)
        refine ⟨?_, ?_, ?_, ?_, ?_, ?_, ?_⟩
        · rw [ihdest]
          simp [hmin, chunkBytes, List.append_assoc]
        · rw [ihrbp]
          simp only [writerPush_readFds, writerInitIfNeeded_readFds, readerPush_readbp,
            srcBytes_cons, chunkBytes, List.length_append, addDW]
          rw [Nat.mod_add_mod, Nat.add_assoc]
        · rw [ihwbp]
          cases hre : rest with
          | nil => simp [hmin, addDW, chunkBytes]
          | cons r2 rest2 =>
            simp [hmin, addDW, chunkBytes]
            rw [Nat.add_assoc]
        · rw [ihrc]; simp
        · simp [ihcr, isReadEv]
        · simp [ihcw, isWriteOkEv]
        · exact getLast?_cons_of_eq_some _ _ _ (getLast?_cons_of_eq_some _ _ _
            (getLast?_cons_of_eq_some _ _ _ (getLast?_cons_of_eq_some _ _ _ ihlast)))

/-- Characterization of a run ending in a failed read: after `pre.length`
successful hand-off cycles the `ReadFile` of cycle `pre.length + 1` fails
with code `e`.  The read fiber's result code becomes `e`, exactly
`pre.length + 1` reads happen, and the run ends with the reader's terminal
transition. -/
theorem run_readFail (pre rest : List ReadRes) (ws : List WriteRes) (e : Nat) (st : SysState)
    (hc : ∀ r ∈ pre, goodChunk r)
    (hok : ∀ i, i < pre.length → okWrite (wAt ws i)) :
    (run (pre ++ .fail e :: rest) ws st).1.readFds.dwFiberResultCode = e ∧
    countReads (run (pre ++ .fail e :: rest) ws st).2 = pre.length + 1 ∧
    (run (pre ++ .fail e :: rest) ws st).2.getLast? = some (.toPrimary .reader) := by
  induction pre generalizing ws st with
  | nil =>
    rw [List.nil_append, run_fail]
    exact ⟨rfl, by simp [isReadEv], rfl⟩
  | cons r pre ih =>
    cases r with
    | fail e2 => exact absurd (hc _ (List.mem_cons_self _ _)) (fun h => h)
    | chunk bs =>
      obtain ⟨hne, _⟩ : bs ≠ [] ∧ bs.length ≤ BUFFER_SIZE := hc _ (List.mem_cons_self _ _)
      have hok0 := hok 0 (by simp)
      rw [wAt_zero] at hok0
      cases hwr : headW ws with
      | fail e2 => rw [hwr] at hok0; exact absurd hok0 (fun h => h)
      | ok w =>
        rw [List.cons_append, run_chunk_writeOk bs hne w (pre ++ .fail e :: rest) ws hwr]
        have hc' : ∀ x ∈ pre, goodChunk x := fun x hx => hc x (List.mem_cons_of_mem _ hx)
        have hok' : ∀ i, i < pre.length → okWrite (wAt ws.tail i) := by
          intro i h
          rw [wAt_tail]
          exact hok (i + 1) (by simpa using Nat.succ_lt_succ h)
        obtain ⟨ihrc, ihcr, ihlast⟩ :=
          ih ws.tail (writerPush w (writerInitIfNeeded (readerPush bs st))) hc' hok'
        refine ⟨ihrc, by simp [ihcr, isReadEv], ?_⟩
        exact getLast?_cons_of_eq_some _ _ _ (getLast?_cons_of_eq_some _ _ _
          (getLast?_cons_of_eq_some _ _ _ (getLast?_cons_of_eq_some _ _ _ ihlast)))

/-- On a run whose reads all deliver good chunks until end of stream and
whose writes all succeed (possibly short), the reader ends via its
end-of-stream transition with result code equal to the entry last-error
value. -/
theorem run_eos (src : List ReadRes) (ws : List WriteRes) (st : SysState)
    (hc : ∀ r ∈ src, goodChunk r)
    (hok : ∀ i, i < src.length → okWrite (wAt ws i)) :
    (run src ws st).1.readFds.dwFiberResultCode = st.lastError ∧
    (run src ws st).2.getLast? = some (.toPrimary .reader) := by
  induction src generalizing ws st with
  | nil => rw [run_nil]; exact ⟨rfl, rfl⟩
  | cons r rest ih =>
    cases r with
    | fail e => exact absurd (hc _ (List.mem_cons_self _ _)) (fun h => h)
    | chunk bs =>
      obtain ⟨hne, _⟩ : bs ≠ [] ∧ bs.length ≤ BUFFER_SIZE := hc _ (List.mem_cons_self _ _)
      have hok0 := hok 0 (by simp)
      rw [wAt_zero] at hok0
      cases hwr : headW ws with
      | fail e2 => rw [hwr] at hok0; exact absurd hok0 (fun h => h)
      | ok w =>
        rw [run_chunk_writeOk bs hne w rest ws hwr]
        have hc' : ∀ x ∈ rest, goodChunk x := fun x hx => hc x (List.mem_cons_of_mem _ hx)
        have hok' : ∀ i, i < rest.length → okWrite (wAt ws.tail i) := by
          intro i h
          rw [wAt_tail]
          exact hok (i + 1) (by simpa using Nat.succ_lt_succ h)
        obtain ⟨ihrc, ihlast⟩ :=
          ih ws.tail (writerPush w (writerInitIfNeeded (readerPush bs st))) hc' hok'
        refine ⟨by simpa using ihrc, ?_⟩
        exact getLast?_cons_of_eq_some _ _ _ (getLast?_cons_of_eq_some _ _ _
          (getLast?_cons_of_eq_some _ _ _ (getLast?_cons_of_eq_some _ _ _ ihlast)))

/-- Characterization of a run halted by a failed write: the source delivers
good chunks, the first `wsPre.length` writes succeed, and write number
`wsPre.length + 1` fails with code `e`.  The write fiber's result code
becomes `e`, the reader performs exactly `wsPre.length + 1` reads and is
never resumed afterwards (the trace ends at the writer's terminal
transition), there are exactly `wsPre.length` successful write cycles, and
the writer's `DWORD` counter holds the bytes those cycles transferred. -/
theorem run_writeFail (wsPre : List WriteRes) (pre : List ReadRes) (rest : List ReadRes)
    (wsRest : List WriteRes) (e : Nat) (st : SysState)
    (hc : ∀ r ∈ pre, goodChunk r)
    (hlen : pre.length = wsPre.length + 1)
    (hok : ∀ x ∈ wsPre, okWrite x)
    (hbpW : st.writerStarted = true → st.writeFds.dwBytesProcessed < DWORD_MOD) :
    (run (pre ++ rest) (wsPre ++ .fail e :: wsRest) st).1.writeFds.dwFiberResultCode = e ∧
    countReads (run (pre ++ rest) (wsPre ++ .fail e :: wsRest) st).2 = wsPre.length + 1 ∧
    countWriteOk (run (pre ++ rest) (wsPre ++ .fail e :: wsRest) st).2 = wsPre.length ∧
    sumWritten (run (pre ++ rest) (wsPre ++ .fail e :: wsRest) st).2 = sumMin wsPre pre ∧
    (run (pre ++ rest) (wsPre ++ .fail e :: wsRest) st).1.writeFds.dwBytesProcessed
      = ((if st.writerStarted then st.writeFds.dwBytesProcessed else 0) + sumMin wsPre pre)
          % DWORD_MOD ∧
    (run (pre ++ rest) (wsPre ++ .fail e :: wsRest) st).2.getLast? = some (.toPrimary .writer) := by
  induction wsPre generalizing pre st with
  | nil =>
    cases pre with
    | nil => simp at hlen
    | cons r pre2 =>
      cases pre2 with
      | cons r2 pre3 => simp at hlen
      | nil =>
        cases r with
        | fail e2 => exact absurd (hc _ (List.mem_cons_self _ _)) (fun h => h)
        | chunk bs =>
          obtain ⟨hne, _⟩ : bs ≠ [] ∧ bs.length ≤ BUFFER_SIZE := hc _ (List.mem_cons_self _ _)
          rw [List.cons_append, List.nil_append, List.nil_append,
            run_chunk_writeFail bs hne e rest (.fail e :: wsRest) rfl]
          refine ⟨by simp, by simp [isReadEv, isWriteOkEv], by simp [isWriteOkEv], ?_, ?_, rfl⟩
          · simp [writtenOf, sumMin]
          · simp only [writerTerminal_writebp]
            have : (writerInitIfNeeded (readerPush bs st)).writeFds.dwBytesProcessed
                = if st.writerStarted then st.writeFds.dwBytesProcessed else 0 := by simp
            rw [show ({ writerInitIfNeeded (readerPush bs st) with lastError := e } : SysState).writeFds
                = (writerInitIfNeeded (readerPush bs st)).writeFds from rfl, this, sumMin_nil_left]
            cases hst : st.writerStarted with
            | true => simp [Nat.mod_eq_of_lt (hbpW hst)]
            | false => simp
  | cons x wsPre ih =>
    cases pre with
    | nil => simp at hlen
    | cons r pre2 =>
      cases r with
      | fail e2 => exact absurd (hc _ (List.mem_cons_self _ _)) (fun h => h)
      | chunk bs =>
        obtain ⟨hne, _⟩ : bs ≠ [] ∧ bs.length ≤ BUFFER_SIZE := hc _ (List.mem_cons_self _ _)
        cases x with
        | fail e2 => exact absurd (hok _ (List.mem_cons_self _ _)) (fun h => h)
        | ok w =>
          rw [List.cons_append, List.cons_append,
            run_chunk_writeOk bs hne w (pre2 ++ rest) (.ok w :: (wsPre ++ .fail e :: wsRest)) rfl]
          have hc' : ∀ y ∈ pre2, goodChunk y := fun y hy => hc y (List.mem_cons_of_mem _ hy)
          have hok' : ∀ y ∈ wsPre, okWrite y := fun y hy => hok y (List.mem_cons_of_mem _ hy)
          have hlen' : pre2.length = wsPre.length + 1 := by simpa using hlen
          obtain ⟨ihrc, ihcr, ihcw, ihsw, ihbp, ihlast⟩ :=
            ih pre2 (writerPush w (writerInitIfNeeded (readerPush bs st))) hc' hlen' hok'
              (fun _ => by simpa using addDW_lt _ _)
          refine ⟨ihrc, by simp [ihcr, isReadEv], by simp [ihcw, isWriteOkEv], ?_, ?_, ?_⟩
          · simp [writtenOf, ihsw, okAmt, chunkBytes]
          · simp only [List.tail_cons]
            rw [ihbp]
            simp only [writerPush_writerStarted, writerInitIfNeeded_writerStarted, if_true,
              writerPush_bp, writerInitIfNeeded_bp, writerInitIfNeeded_g_dwBytesRead,
              readerPush_g_dwBytesRead, addDW, sumMin_cons, chunkBytes, okAmt]
            rw [Nat.mod_add_mod, Nat.add_assoc]
            simp only [readerPush_writerStarted, readerPush_writeFds]
          · exact getLast?_cons_of_eq_some _ _ _ (getLast?_cons_of_eq_some _ _ _
              (getLast?_cons_of_eq_some _ _ _ (getLast?_cons_of_eq_some _ _ _ ihlast)))

end RunLemmas

section MoreSmallLemmas

@[simp] theorem wAt_nil (i : Nat) : wAt [] i = .ok BUFFER_SIZE := by
  simp [wAt]

theorem pipeline_def (src : List ReadRes) (ws : List WriteRes) (g : HeapGarbage)
    (hSrc hDst : Int) :
    pipeline src ws g hSrc hDst = run src ws (readerInit (startState g hSrc hDst)) := rfl

@[simp] theorem pipelineInit_readbp (g : HeapGarbage) (hSrc hDst : Int) :
    (readerInit (startState g hSrc hDst)).readFds.dwBytesProcessed = 0 := rfl

@[simp] theorem pipelineInit_writebp (g : HeapGarbage) (hSrc hDst : Int) :
    (readerInit (startState g hSrc hDst)).writeFds.dwBytesProcessed
      = g.writeG.dwBytesProcessed := rfl

@[simp] theorem pipelineInit_writerStarted (g : HeapGarbage) (hSrc hDst : Int) :
    (readerInit (startState g hSrc hDst)).writerStarted = false := rfl

@[simp] theorem pipelineInit_dest (g : HeapGarbage) (hSrc hDst : Int) :
    (readerInit (startState g hSrc hDst)).dest = [] := rfl

@[simp] theorem pipelineInit_lastError (g : HeapGarbage) (hSrc hDst : Int) :
    (readerInit (startState g hSrc hDst)).lastError = 0 := rfl

theorem sumMin_replicate (n m w : Nat) (c : List Nat) (h : n ≤ m) :
    sumMin (List.replicate n (.ok w)) (List.replicate m (.chunk c))
      = n * min w c.length := by
  induction n generalizing m with
  | zero => simp
  | succ k ih =>
    cases m with
    | zero => omega
    | succ m2 =>
      rw [List.replicate_succ, List.replicate_succ, sumMin_cons,
        ih m2 (by omega)]
      simp [okAmt, chunkBytes, Nat.succ_mul]
      omega

theorem srcBytes_length_uniform (src : List ReadRes) (B : Nat)
    (h : ∀ r ∈ src, (chunkBytes r).length = B) :
    (srcBytes src).length = src.length * B := by
  induction src with
  | nil => simp
  | cons r rest ih =>
    have hr : (chunkBytes r).length = B := h r (List.mem_cons_self _ _)
    have ih2 := ih (fun x hx => h x (List.mem_cons_of_mem _ hx))
    simp [hr, ih2, Nat.succ_mul]
    omega

end MoreSmallLemmas

/-- Outcome state of a read-fiber loop iteration. -/
def RStep.state : RStep → SysState
  | .handoff st => st
  | .halt st _ => st

/-- Outcome state of a write-fiber loop iteration. -/
def WStep.state : WStep → SysState
  | .toReader st _ => st
  | .halt st _ => st

/-- Zero allocation garbage: heap contents that happen to be all zeroes. -/
def gZero : HeapGarbage := ⟨⟨0, 0, 0, 0⟩, ⟨0, 0, 0, 0⟩, ⟨0, 0, 0, 0⟩, []⟩

/-- Nonzero allocation garbage: heap contents that happen to be all sevens. -/
def gSeven : HeapGarbage := ⟨⟨7, 7, 7, 7⟩, ⟨7, 7, 7, 7⟩, ⟨7, 7, 7, 7⟩, [9]⟩

/-- A full buffer's worth of bytes. -/
def bigChunk : List Nat := List.replicate BUFFER_SIZE 0

/-- C1 (counterexample): with source chunk `[1, 2]` and a short but
successful write (`WriteFile` returns success having transferred 1 byte),
every `ReadFile` and `WriteFile` call succeeds and the run ends via the
reader's end-of-stream transition, yet the destination holds `[1]` while
the source stream held `[1, 2]`: the claimed byte-for-byte equality fails. -/
theorem c1_counterexample :
    callsAllSucceeded (pipeline [ReadRes.chunk [1, 2]] [WriteRes.ok 1] gZero 0 1).2 = true ∧
    (pipeline [ReadRes.chunk [1, 2]] [WriteRes.ok 1] gZero 0 1).2.getLast?
      = some (Event.toPrimary Worker.reader) ∧
    srcBytes [ReadRes.chunk [1, 2]] = [1, 2] ∧
    (pipeline [ReadRes.chunk [1, 2]] [WriteRes.ok 1] gZero 0 1).1.dest = [1] ∧
    (pipeline [ReadRes.chunk [1, 2]] [WriteRes.ok 1] gZero 0 1).1.dest
      ≠ srcBytes [ReadRes.chunk [1, 2]] := by
  decide

/-- C1 (amended): for every source byte sequence, after a run in which
every `ReadFile` delivers a nonempty chunk of at most the buffer capacity
until end of stream and every `WriteFile` succeeds transferring the full
number of bytes requested, the run ends via the reader's end-of-stream
transition and the destination stream's contents equal the source stream's
contents exactly, byte for byte and in order. -/
theorem c1_roundtrip (src : List ReadRes) (ws : List WriteRes) (g : HeapGarbage)
    (hSrc hDst : Int)
    (hc : ∀ r ∈ src, goodChunk r)
    (hw : ∀ i (h : i < src.length), fullWriteFor (src.get ⟨i, h⟩) (wAt ws i)) :
    (pipeline src ws g hSrc hDst).1.dest = srcBytes src ∧
    (pipeline src ws g hSrc hDst).2.getLast? = some (Event.toPrimary Worker.reader) := by
  obtain ⟨hdest, _, _, _, _, _, hlast⟩ :=
    run_clean src ws (readerInit (startState g hSrc hDst)) hc hw
      (by rw [pipelineInit_readbp]; decide) (fun h => by simp at h)
  exact ⟨by simpa using hdest, hlast⟩

/-- C1 (witness): concrete instance of the round-trip theorem. -/
theorem c1_roundtrip_witness :
    (∀ r ∈ [ReadRes.chunk [3, 4]], goodChunk r) ∧
    (pipeline [ReadRes.chunk [3, 4]] [] gZero 0 1).1.dest = srcBytes [ReadRes.chunk [3, 4]] :=
  ⟨by decide,
    (c1_roundtrip [ReadRes.chunk [3, 4]] [] gZero 0 1 (by decide)
      (fun i h => by
        have h1 : i < 1 := by simpa using h
        have hi : i = 0 := by omega
        subst hi
        exact (by decide : fullWriteFor (ReadRes.chunk [3, 4]) (wAt [] 0)))).1⟩

/-- C2 (counterexample): with source chunk `[1, 2]` and a short but
successful write, no read or write errors occur and the run ends at end of
stream, yet the reader's final `dwBytesProcessed` is 2 while the writer's
is 1: the claimed equality of the two counters fails. -/
theorem c2_counterexample :
    callsAllSucceeded (pipeline [ReadRes.chunk [1, 2]] [WriteRes.ok 1] gZero 0 1).2 = true ∧
    (pipeline [ReadRes.chunk [1, 2]] [WriteRes.ok 1] gZero 0 1).2.getLast?
      = some (Event.toPrimary Worker.reader) ∧
    (pipeline [ReadRes.chunk [1, 2]] [WriteRes.ok 1] gZero 0 1).1.readFds.dwBytesProcessed = 2 ∧
    (pipeline [ReadRes.chunk [1, 2]] [WriteRes.ok 1] gZero 0 1).1.writeFds.dwBytesProcessed = 1 ∧
    (pipeline [ReadRes.chunk [1, 2]] [WriteRes.ok 1] gZero 0 1).1.readFds.dwBytesProcessed
      ≠ (pipeline [ReadRes.chunk [1, 2]] [WriteRes.ok 1] gZero 0 1).1.writeFds.dwBytesProcessed := by
  decide

/-- C2 (amended): on a successful run (no read or write error) in which the
source delivers at least one chunk (so the writer runs and initializes its
counter) and every write transfers the full requested count, the reader's
final `dwBytesProcessed` equals the writer's final `dwBytesProcessed`.
On an empty source the writer's counter is never initialized and retains
its allocation value. -/
theorem c2_counters_agree (src : List ReadRes) (ws : List WriteRes) (g : HeapGarbage)
    (hSrc hDst : Int)
    (hc : ∀ r ∈ src, goodChunk r)
    (hw : ∀ i (h : i < src.length), fullWriteFor (src.get ⟨i, h⟩) (wAt ws i))
    (hne : src ≠ []) :
    (pipeline src ws g hSrc hDst).1.readFds.dwBytesProcessed
      = (pipeline src ws g hSrc hDst).1.writeFds.dwBytesProcessed := by
  obtain ⟨_, hrbp, hwbp, _, _, _, _⟩ :=
    run_clean src ws (readerInit (startState g hSrc hDst)) hc hw
      (by rw [pipelineInit_readbp]; decide) (fun h => by simp at h)
  show (run src ws (readerInit (startState g hSrc hDst))).1.readFds.dwBytesProcessed
      = (run src ws (readerInit (startState g hSrc hDst))).1.writeFds.dwBytesProcessed
  rw [hrbp, hwbp]
  simp [hne]

/-- C2 (witness): concrete instance of the counter-agreement theorem. -/
theorem c2_counters_agree_witness :
    ([ReadRes.chunk [3, 4]] : List ReadRes) ≠ [] ∧
    (pipeline [ReadRes.chunk [3, 4]] [] gZero 0 1).1.readFds.dwBytesProcessed
      = (pipeline [ReadRes.chunk [3, 4]] [] gZero 0 1).1.writeFds.dwBytesProcessed :=
  ⟨by decide,
    c2_counters_agree [ReadRes.chunk [3, 4]] [] gZero 0 1 (by decide)
      (fun i h => by
        have h1 : i < 1 := by simpa using h
        have hi : i = 0 := by omega
        subst hi
        exact (by decide : fullWriteFor (ReadRes.chunk [3, 4]) (wAt [] 0)))
      (by decide)⟩

/-- C3 (counterexample): on an empty source, the run ends and control
returns to the primary fiber via the reader's terminal transition while the
write fiber never received control at all, so it never reached its own
terminal transition: the claim that both workers are terminal whenever
control returns to the primary fiber fails. -/
theorem c3_counterexample :
    (pipeline [] [] gZero 0 1).2 = [Event.readOk 0, Event.toPrimary Worker.reader] ∧
    Event.toPrimary Worker.writer ∉ (pipeline [] [] gZero 0 1).2 ∧
    Event.toWriter ∉ (pipeline [] [] gZero 0 1).2 := by
  decide

/-- C3 (amended): in every run, control returns to the primary task exactly
once, as the final event of the run, via the terminal transition of exactly
one worker; the other worker need not have reached its own terminal
transition (on the clean end-of-stream path the writer never does). -/
theorem c3_single_return_to_primary (src : List ReadRes) (ws : List WriteRes)
    (g : HeapGarbage) (hSrc hDst : Int) :
    countToPrimary (pipeline src ws g hSrc hDst).2 = 1 ∧
    ∃ w, (pipeline src ws g hSrc hDst).2.getLast? = some (Event.toPrimary w) :=
  run_toPrimary src ws (readerInit (startState g hSrc hDst))

/-- C4: the reader's final result code after a clean end-of-stream
termination is `ERROR_SUCCESS` (the end-of-stream sentinel, the last-error
value left by the run's uniformly successful calls), while after a mid-read
failure with a nonzero error code `e` it is `e`; the two values are
distinct, so the caller can distinguish end of stream from a read failure
by inspecting the result code alone. -/
theorem c4_eos_and_readfail_distinct (src1 : List ReadRes) (ws1 : List WriteRes)
    (g1 : HeapGarbage) (h1s h1d : Int)
    (pre rest : List ReadRes) (ws2 : List WriteRes) (e : Nat)
    (g2 : HeapGarbage) (h2s h2d : Int)
    (hc1 : ∀ r ∈ src1, goodChunk r)
    (hok1 : ∀ i, i < src1.length → okWrite (wAt ws1 i))
    (hc2 : ∀ r ∈ pre, goodChunk r)
    (hok2 : ∀ i, i < pre.length → okWrite (wAt ws2 i))
    (he : e ≠ 0) :
    (pipeline src1 ws1 g1 h1s h1d).1.readFds.dwFiberResultCode = ERROR_SUCCESS ∧
    (pipeline (pre ++ .fail e :: rest) ws2 g2 h2s h2d).1.readFds.dwFiberResultCode = e ∧
    (pipeline src1 ws1 g1 h1s h1d).1.readFds.dwFiberResultCode
      ≠ (pipeline (pre ++ .fail e :: rest) ws2 g2 h2s h2d).1.readFds.dwFiberResultCode := by
  obtain ⟨h1, _⟩ := run_eos src1 ws1 (readerInit (startState g1 h1s h1d)) hc1 hok1
  obtain ⟨h2, _, _⟩ := run_readFail pre rest ws2 e (readerInit (startState g2 h2s h2d)) hc2 hok2
  have e1 : (pipeline src1 ws1 g1 h1s h1d).1.readFds.dwFiberResultCode = ERROR_SUCCESS := by
    rw [show ERROR_SUCCESS = 0 from rfl]
    simpa using h1
  have e2 : (pipeline (pre ++ .fail e :: rest) ws2 g2 h2s h2d).1.readFds.dwFiberResultCode = e := h2
  exact ⟨e1, e2, by rw [e1, e2]; exact fun hh => he hh.symm⟩

/-- C4 (witness): concrete instance distinguishing the two result codes. -/
theorem c4_witness :
    (5 : Nat) ≠ 0 ∧
    (pipeline [] [] gZero 0 1).1.readFds.dwFiberResultCode
      ≠ (pipeline ([] ++ ReadRes.fail 5 :: []) [] gZero 0 1).1.readFds.dwFiberResultCode :=
  ⟨by decide,
    (c4_eos_and_readfail_distinct [] [] gZero 0 1 [] [] [] 5 gZero 0 1
      (by decide) (fun i h => absurd h (Nat.not_lt_zero i))
      (by decide) (fun i h => absurd h (Nat.not_lt_zero i)) (by decide)).2.2⟩

/-- C5: for a source stream of exactly 0 bytes, the run terminates after a
single reader cycle with the reader's result code equal to the end-of-stream
sentinel `ERROR_SUCCESS`, the reader's `dwBytesProcessed` equal to 0, and
the write fiber never receiving control (no hand-off to it in the trace,
and its entry code never ran). -/
theorem c5_zero_byte_source (ws : List WriteRes) (g : HeapGarbage) (hSrc hDst : Int) :
    (pipeline [] ws g hSrc hDst).1.readFds.dwFiberResultCode = ERROR_SUCCESS ∧
    (pipeline [] ws g hSrc hDst).1.readFds.dwBytesProcessed = 0 ∧
    (pipeline [] ws g hSrc hDst).2 = [Event.readOk 0, Event.toPrimary Worker.reader] ∧
    (pipeline [] ws g hSrc hDst).1.writerStarted = false ∧
    Event.toWriter ∉ (pipeline [] ws g hSrc hDst).2 :=
  ⟨rfl, rfl, rfl, rfl, by simp [pipeline, run_nil]⟩

/-- The full-buffer chunk has exactly `BUFFER_SIZE` bytes. -/
theorem bigChunk_length : bigChunk.length = BUFFER_SIZE :=
  List.length_replicate BUFFER_SIZE 0

/-- The full-buffer chunk is nonempty. -/
theorem bigChunk_ne_nil : bigChunk ≠ [] := by
  intro h
  have hl := congrArg List.length h
  rw [bigChunk_length] at hl
  exact absurd hl (by decide)

/-- The full-buffer chunk is a good chunk. -/
theorem goodChunk_bigChunk : goodChunk (ReadRes.chunk bigChunk) :=
  ⟨bigChunk_ne_nil, le_of_eq bigChunk_length⟩

/-- Source script for the write-failure wraparound run: 131074 full buffers. -/
def c6pre : List ReadRes := List.replicate 131074 (ReadRes.chunk bigChunk)

/-- Write script for the wraparound run: 131073 full successful writes. -/
def c6ws : List WriteRes := List.replicate 131073 (WriteRes.ok BUFFER_SIZE)

/-- C6 (counterexample): inject the write failure on cycle `m = 131074`,
after 131073 fully successful 32768-byte writes.  The bytes written in the
first `m - 1` successful cycles sum to `131073 * 32768 = 2^32 + 32768`, but
the writer's `dwBytesProcessed` is a 32-bit `DWORD` and holds only 32768:
the claimed equality with the plain sum fails. -/
theorem c6_counterexample :
    sumWritten (pipeline c6pre (c6ws ++ [WriteRes.fail 6]) gZero 0 1).2 = 131073 * 32768 ∧
    (pipeline c6pre (c6ws ++ [WriteRes.fail 6]) gZero 0 1).1.writeFds.dwFiberResultCode = 6 ∧
    (pipeline c6pre (c6ws ++ [WriteRes.fail 6]) gZero 0 1).1.writeFds.dwBytesProcessed = 32768 ∧
    (pipeline c6pre (c6ws ++ [WriteRes.fail 6]) gZero 0 1).1.writeFds.dwBytesProcessed
      ≠ 131073 * 32768 := by
  rw [pipeline_def]
  have hc : ∀ r ∈ c6pre, goodChunk r := by
    intro r hr
    rw [List.eq_of_mem_replicate hr]
    exact goodChunk_bigChunk
  have hlen : c6pre.length = c6ws.length + 1 := by
    rw [show c6pre = List.replicate 131074 (ReadRes.chunk bigChunk) from rfl,
      show c6ws = List.replicate 131073 (WriteRes.ok BUFFER_SIZE) from rfl,
      List.length_replicate, List.length_replicate]
  have hok : ∀ x ∈ c6ws, okWrite x := by
    intro x hx
    rw [List.eq_of_mem_replicate hx]
    trivial
  have h := run_writeFail c6ws c6pre [] [] 6 (readerInit (startState gZero 0 1))
    hc hlen hok (fun hh => by simp at hh)
  rw [List.append_nil] at h
  obtain ⟨h1, _, _, h4, h5, _⟩ := h
  have hsm : sumMin c6ws c6pre = 131073 * 32768 := by
    rw [show c6ws = List.replicate 131073 (WriteRes.ok BUFFER_SIZE) from rfl,
      show c6pre = List.replicate 131074 (ReadRes.chunk bigChunk) from rfl,
      sumMin_replicate 131073 131074 BUFFER_SIZE bigChunk (by omega),
      bigChunk_length, min_self]
    rfl
  have hbp : (run c6pre (c6ws ++ [WriteRes.fail 6])
      (readerInit (startState gZero 0 1))).1.writeFds.dwBytesProcessed = 32768 := by
    rw [h5, hsm]
    norm_num [DWORD_MOD]
  refine ⟨?_, h1, hbp, ?_⟩
  · rw [h4, hsm]
  · rw [hbp]
    norm_num

/-- C6 (amended): if the destination write fails on cycle
`m = wsPre.length + 1` (the first `m - 1` writes succeed, possibly short),
then the writer's final result code is the write failure's error code, the
reader performs exactly `m` reads (never an `(m+1)`-th: the trace ends at
the writer's terminal transition to the primary fiber, so the reader is
never resumed afterwards), exactly `m - 1` write cycles succeed, and the
writer's final `dwBytesProcessed` equals the sum of the bytes written in
those `m - 1` successful cycles reduced modulo 2^32 (`DWORD` arithmetic). -/
theorem c6_write_failure_halts (wsPre : List WriteRes) (pre rest : List ReadRes)
    (wsRest : List WriteRes) (e : Nat) (g : HeapGarbage) (hSrc hDst : Int)
    (hc : ∀ r ∈ pre, goodChunk r)
    (hlen : pre.length = wsPre.length + 1)
    (hok : ∀ x ∈ wsPre, okWrite x) :
    (pipeline (pre ++ rest) (wsPre ++ .fail e :: wsRest) g hSrc hDst).1.writeFds.dwFiberResultCode
      = e ∧
    countReads (pipeline (pre ++ rest) (wsPre ++ .fail e :: wsRest) g hSrc hDst).2
      = wsPre.length + 1 ∧
    countWriteOk (pipeline (pre ++ rest) (wsPre ++ .fail e :: wsRest) g hSrc hDst).2
      = wsPre.length ∧
    (pipeline (pre ++ rest) (wsPre ++ .fail e :: wsRest) g hSrc hDst).1.writeFds.dwBytesProcessed
      = sumWritten (pipeline (pre ++ rest) (wsPre ++ .fail e :: wsRest) g hSrc hDst).2
          % DWORD_MOD ∧
    (pipeline (pre ++ rest) (wsPre ++ .fail e :: wsRest) g hSrc hDst).2.getLast?
      = some (Event.toPrimary Worker.writer) := by
  obtain ⟨h1, h2, h3, h4, h5, h6⟩ :=
    run_writeFail wsPre pre rest wsRest e (readerInit (startState g hSrc hDst))
      hc hlen hok (fun hh => by simp at hh)
  refine ⟨h1, h2, h3, ?_, h6⟩
  show (run (pre ++ rest) (wsPre ++ .fail e :: wsRest)
      (readerInit (startState g hSrc hDst))).1.writeFds.dwBytesProcessed
    = sumWritten (run (pre ++ rest) (wsPre ++ .fail e :: wsRest)
      (readerInit (startState g hSrc hDst))).2 % DWORD_MOD
  rw [h5, h4]
  simp

/-- C6 (witness): concrete instance with the failure injected on the first
write cycle. -/
theorem c6_write_failure_halts_witness :
    (∀ r ∈ [ReadRes.chunk [5]], goodChunk r) ∧
    (pipeline ([ReadRes.chunk [5]] ++ []) ([] ++ WriteRes.fail 7 :: [])
      gZero 0 1).1.writeFds.dwFiberResultCode = 7 ∧
    countReads (pipeline ([ReadRes.chunk [5]] ++ []) ([] ++ WriteRes.fail 7 :: [])
      gZero 0 1).2 = 0 + 1 :=
  ⟨by decide,
    (c6_write_failure_halts [] [ReadRes.chunk [5]] [] [] 7 gZero 0 1
      (by decide) (by decide) (fun x hx => absurd hx (List.not_mem_nil x))).1,
    (c6_write_failure_halts [] [ReadRes.chunk [5]] [] [] 7 gZero 0 1
      (by decide) (by decide) (fun x hx => absurd hx (List.not_mem_nil x))).2.1⟩

/-- C7 (counterexample): with allocation contents of all sevens, at the
moment the read fiber is created its record's `dwFiberResultCode`,
`dwBytesProcessed` and `dwParameter` all hold 7, and likewise for the write
fiber's record at its creation: the claimed all-zero state fails
(`HeapAlloc` with flags 0 does not zero memory and the code never zeroes
these fields before fiber creation). -/
theorem c7_counterexample :
    ¬ (((tcbsAtReadFiberCreation gSeven 0 1).readFs.dwFiberResultCode = 0 ∧
        (tcbsAtReadFiberCreation gSeven 0 1).readFs.dwBytesProcessed = 0 ∧
        (tcbsAtReadFiberCreation gSeven 0 1).readFs.dwParameter = 0) ∧
       ((tcbsAtWriteFiberCreation gSeven 0 1).writeFs.dwFiberResultCode = 0 ∧
        (tcbsAtWriteFiberCreation gSeven 0 1).writeFs.dwBytesProcessed = 0 ∧
        (tcbsAtWriteFiberCreation gSeven 0 1).writeFs.dwParameter = 0)) := by
  decide

/-- C7 (amended): at the moment each worker fiber is created, every field
of its record other than the stream handle retains the allocation's prior
contents (nothing is zeroed); the `dwParameter` tags (`0x12345678` for the
reader, `0x54545454` for the writer) are assigned only after the respective
`CreateFiber` call, and the primary record's `dwBytesProcessed` is never
initialized at all. -/
theorem c7_tcbs_retain_allocation_contents (g : HeapGarbage) (hSrc hDst : Int) :
    (tcbsAtReadFiberCreation g hSrc hDst).readFs = { g.readG with hFile := hSrc } ∧
    (tcbsAtWriteFiberCreation g hSrc hDst).writeFs = { g.writeG with hFile := hDst } ∧
    (tcbsAtWriteFiberCreation g hSrc hDst).readFs.dwParameter = 0x12345678 ∧
    (tcbsAfterSetup g hSrc hDst).readFs.dwParameter = 0x12345678 ∧
    (tcbsAfterSetup g hSrc hDst).writeFs.dwParameter = 0x54545454 ∧
    (tcbsAfterSetup g hSrc hDst).primaryFs
      = { g.primaryG with
            dwParameter := 0
            dwFiberResultCode := 0
            hFile := INVALID_HANDLE_VALUE } :=
  ⟨rfl, rfl, rfl, rfl, rfl, rfl⟩

/-- Source script of exactly 131073 full buffers. -/
def c8src : List ReadRes := List.replicate 131073 (ReadRes.chunk bigChunk)

/-- C8 (counterexample): a source of `k = 131073` full 32768-byte buffers
satisfies the claim's hypotheses, but the reader's final `dwBytesProcessed`
is `(131073 * 32768) mod 2^32 = 32768`, not `k` times the buffer capacity:
the `DWORD` counter wraps. -/
theorem c8_counterexample :
    c8src.length = 131073 ∧
    (∀ r ∈ c8src, ∃ bs, r = ReadRes.chunk bs ∧ bs.length = BUFFER_SIZE) ∧
    (pipeline c8src [] gZero 0 1).1.readFds.dwBytesProcessed = 32768 ∧
    (pipeline c8src [] gZero 0 1).1.readFds.dwBytesProcessed ≠ 131073 * BUFFER_SIZE := by
  rw [pipeline_def]
  have hc : ∀ r ∈ c8src, goodChunk r := by
    intro r hr
    rw [List.eq_of_mem_replicate hr]
    exact goodChunk_bigChunk
  have hw : ∀ i (h : i < c8src.length), fullWriteFor (c8src.get ⟨i, h⟩) (wAt [] i) := by
    intro i h
    rw [wAt_nil, List.eq_of_mem_replicate (List.get_mem c8src i h)]
    show bigChunk.length ≤ BUFFER_SIZE
    rw [bigChunk_length]
  obtain ⟨_, hrbp, _, _, _, _, _⟩ :=
    run_clean c8src [] (readerInit (startState gZero 0 1)) hc hw
      (by rw [pipelineInit_readbp]; decide) (fun hh => by simp at hh)
  have hsl : (srcBytes c8src).length = 131073 * BUFFER_SIZE := by
    rw [srcBytes_length_uniform c8src BUFFER_SIZE (fun r hr => by
        rw [List.eq_of_mem_replicate hr]
        exact bigChunk_length),
      show c8src = List.replicate 131073 (ReadRes.chunk bigChunk) from rfl,
      List.length_replicate]
  have hbp : (run c8src [] (readerInit (startState gZero 0 1))).1.readFds.dwBytesProcessed
      = 32768 := by
    rw [hrbp, pipelineInit_readbp, hsl]
    norm_num [DWORD_MOD, BUFFER_SIZE]
  refine ⟨by
      rw [show c8src = List.replicate 131073 (ReadRes.chunk bigChunk) from rfl,
        List.length_replicate],
    fun r hr => ?_, hbp, ?_⟩
  · rw [List.eq_of_mem_replicate hr]
    exact ⟨bigChunk, rfl, bigChunk_length⟩
  · rw [hbp]
    norm_num [BUFFER_SIZE]

/-- C8 (amended): for every `k ≥ 0`, a source of exactly `k` chunks each of
exactly the buffer capacity, with every write fully transferred, produces
exactly `k` successful reader-to-writer hand-off cycles followed by one
terminal reader cycle, and the reader's final `dwBytesProcessed` equals
`k * BUFFER_SIZE` reduced modulo 2^32 (`DWORD` arithmetic; the plain
product whenever `k * BUFFER_SIZE < 2^32`). -/
theorem c8_k_full_buffers (k : Nat) (src : List ReadRes) (ws : List WriteRes)
    (g : HeapGarbage) (hSrc hDst : Int)
    (hlen : src.length = k)
    (hfull : ∀ r ∈ src, ∃ bs, r = ReadRes.chunk bs ∧ bs.length = BUFFER_SIZE)
    (hw : ∀ i (h : i < src.length), fullWriteFor (src.get ⟨i, h⟩) (wAt ws i)) :
    countWriteOk (pipeline src ws g hSrc hDst).2 = k ∧
    countReads (pipeline src ws g hSrc hDst).2 = k + 1 ∧
    (pipeline src ws g hSrc hDst).2.getLast? = some (Event.toPrimary Worker.reader) ∧
    (pipeline src ws g hSrc hDst).1.readFds.dwBytesProcessed
      = (k * BUFFER_SIZE) % DWORD_MOD := by
  have hc : ∀ r ∈ src, goodChunk r := by
    intro r hr
    obtain ⟨bs, rfl, hbl⟩ := hfull r hr
    refine ⟨fun hnil => ?_, le_of_eq hbl⟩
    rw [hnil] at hbl
    simp [BUFFER_SIZE] at hbl
  obtain ⟨_, hrbp, _, _, hcr, hcw, hlast⟩ :=
    run_clean src ws (readerInit (startState g hSrc hDst)) hc hw
      (by rw [pipelineInit_readbp]; decide) (fun hh => by simp at hh)
  have hsl : (srcBytes src).length = k * BUFFER_SIZE := by
    rw [srcBytes_length_uniform src BUFFER_SIZE (fun r hr => by
        obtain ⟨bs, rfl, hbl⟩ := hfull r hr
        simpa [chunkBytes] using hbl),
      hlen]
  refine ⟨by rw [← hlen]; exact hcw, by rw [← hlen]; exact hcr, hlast, ?_⟩
  show (run src ws (readerInit (startState g hSrc hDst))).1.readFds.dwBytesProcessed
    = (k * BUFFER_SIZE) % DWORD_MOD
  rw [hrbp, pipelineInit_readbp, hsl]
  simp

/-- C8 (witness): the `k = 0` instance. -/
theorem c8_k_full_buffers_witness :
    ([] : List ReadRes).length = 0 ∧
    countReads (pipeline [] [] gZero 0 1).2 = 0 + 1 ∧
    (pipeline [] [] gZero 0 1).1.readFds.dwBytesProcessed = (0 * BUFFER_SIZE) % DWORD_MOD :=
  ⟨rfl,
    (c8_k_full_buffers 0 [] [] gZero 0 1 rfl
      (fun r hr => absurd hr (List.not_mem_nil r))
      (fun i h => absurd h (Nat.not_lt_zero i))).2.1,
    (c8_k_full_buffers 0 [] [] gZero 0 1 rfl
      (fun r hr => absurd hr (List.not_mem_nil r))
      (fun i h => absurd h (Nat.not_lt_zero i))).2.2.2⟩

/-- C9: a successful `WriteFile` that transfers fewer bytes than requested
(`w < g_dwBytesRead`) is treated as a fully successful cycle: the writer
adds exactly the `w` bytes actually written to its `dwBytesProcessed`,
leaves its result code untouched (`ERROR_SUCCESS` from its entry code on
the first cycle), appends only those `w` bytes to the destination, and
hands control back to the read fiber so the pipeline continues; no error is
ever recorded or reported for the short write. -/
theorem c9_short_write_is_success :
    (∀ (st : SysState) (w : Nat), w < st.g_dwBytesRead →
      writerCycle (.ok w) st = .toReader (writerPush w (writerInitIfNeeded st)) w ∧
      (writerPush w (writerInitIfNeeded st)).writeFds.dwBytesProcessed
        = addDW (if st.writerStarted then st.writeFds.dwBytesProcessed else 0) w ∧
      (writerPush w (writerInitIfNeeded st)).writeFds.dwFiberResultCode
        = (if st.writerStarted then st.writeFds.dwFiberResultCode else ERROR_SUCCESS) ∧
      (writerPush w (writerInitIfNeeded st)).dest = st.dest ++ st.buffer.take w) ∧
    (∀ (st : SysState) (bs : List Nat) (rest : List ReadRes) (ws : List WriteRes) (w : Nat),
      bs ≠ [] → headW ws = .ok w → w < bs.length →
      (run (.chunk bs :: rest) ws st).2.take 4
        = [.readOk bs.length, .toWriter, .writeOk w, .toReader]) := by
  constructor
  · intro st w hlt
    refine ⟨?_, ?_, ?_, ?_⟩
    · show WStep.toReader (writerPush w (writerInitIfNeeded st))
          (min w (writerInitIfNeeded st).g_dwBytesRead)
        = WStep.toReader (writerPush w (writerInitIfNeeded st)) w
      rw [writerInitIfNeeded_g_dwBytesRead, min_eq_left (Nat.le_of_lt hlt)]
    · rw [writerPush_bp, writerInitIfNeeded_bp, writerInitIfNeeded_g_dwBytesRead,
        min_eq_left (Nat.le_of_lt hlt)]
    · rw [writerPush_rc, writerInitIfNeeded_rc]
    · rw [writerPush_dest, writerInitIfNeeded_dest, writerInitIfNeeded_buffer,
        writerInitIfNeeded_g_dwBytesRead, min_eq_left (Nat.le_of_lt hlt)]
  · intro st bs rest ws w hne hw hlt
    rw [run_chunk_writeOk bs hne w rest ws hw]
    simp [min_eq_left (Nat.le_of_lt hlt)]

/-- State used for the short-write witness: the buffer holds two bytes. -/
def stShort : SysState :=
  ⟨⟨0, 0, 0, 0⟩, ⟨0, 0, 0, 0⟩, ⟨0, 0, 0, 0⟩, [8, 9], 2, [], 0, false⟩

/-- C9 (witness): concrete short write of 1 byte out of 2. -/
theorem c9_short_write_witness :
    1 < stShort.g_dwBytesRead ∧
    writerCycle (.ok 1) stShort = .toReader (writerPush 1 (writerInitIfNeeded stShort)) 1 ∧
    (run [ReadRes.chunk [8, 9]] [WriteRes.ok 1] stShort).2.take 4
      = [Event.readOk 2, Event.toWriter, Event.writeOk 1, Event.toReader] :=
  ⟨by decide,
    (c9_short_write_is_success.1 stShort 1 (by decide)).1,
    by
      have h := c9_short_write_is_success.2 stShort [8, 9] [] [WriteRes.ok 1] 1
        (by decide) (by decide) (by decide)
      simpa using h⟩

/-- C10: per worker loop iteration (and over any whole run), the only fiber
record fields a worker ever writes are the `dwFiberResultCode` and
`dwBytesProcessed` of its own record: the `dwParameter` and `hFile` fields
of both worker records and every field of the primary record are left
unchanged, and neither worker writes the other worker's record. -/
theorem c10_frame (r : ReadRes) (res : WriteRes) (st : SysState)
    (src : List ReadRes) (ws : List WriteRes) :
    ((readerCycle r st).state.readFds.dwParameter = st.readFds.dwParameter ∧
     (readerCycle r st).state.readFds.hFile = st.readFds.hFile ∧
     (readerCycle r st).state.writeFds = st.writeFds ∧
     (readerCycle r st).state.primaryFds = st.primaryFds) ∧
    ((writerCycle res st).state.writeFds.dwParameter = st.writeFds.dwParameter ∧
     (writerCycle res st).state.writeFds.hFile = st.writeFds.hFile ∧
     (writerCycle res st).state.readFds = st.readFds ∧
     (writerCycle res st).state.primaryFds = st.primaryFds) ∧
    ((run src ws st).1.readFds.dwParameter = st.readFds.dwParameter ∧
     (run src ws st).1.readFds.hFile = st.readFds.hFile ∧
     (run src ws st).1.writeFds.dwParameter = st.writeFds.dwParameter ∧
     (run src ws st).1.writeFds.hFile = st.writeFds.hFile ∧
     (run src ws st).1.primaryFds = st.primaryFds) := by
  refine ⟨?_, ?_, run_frame src ws st⟩
  · cases r with
    | fail e => exact ⟨rfl, rfl, rfl, rfl⟩
    | chunk bs =>
      by_cases hbs : bs.length = 0
      · simp [readerCycle, hbs, RStep.state]
      · simp [readerCycle, hbs, RStep.state]
  · cases res with
    | fail e => simp [writerCycle, WStep.state]
    | ok w => simp [writerCycle, WStep.state]

end MsUsingFibers
